import Mathlib

/-!
Verification of the batching log transport in `n8n-winston-logger.js`
(`ParseableTransport`).  The development shallowly embeds:

* the JavaScript value universe needed by `extractMetadata` (null,
  undefined, booleans, integer numbers, strings, plain objects),
* the metadata extraction and OTLP log-record encoding performed by
  `log` / `extractMetadata` / `sendToParseable`,
* the batching state machine (`log`, `flush`, the timer tick,
  `close`) with its drain-snapshot-retry discipline.

JavaScript object literals with spread (`{a: x, ..., ...m}`) are
modelled by `mkObject`, which assigns keys left to right, a later
assignment to an existing key overwriting the value in place.
-/

/-- JavaScript values as far as the transport inspects them.  Numbers are
modelled as integers (the repository only ever logs integral scalars);
arrays and functions are not needed by any claim. -/
inductive JSValue where
  | vnull : JSValue
  | vundef : JSValue
  | vbool : Bool → JSValue
  | vnum : Int → JSValue
  | vstr : String → JSValue
  | vobj : List (String × JSValue) → JSValue
deriving Repr

/-- Is the value `null` or `undefined`?  Mirrors the test
`value !== null && value !== undefined` on line 78 (negated). -/
def JSValue.isNullish : JSValue → Bool
  | .vnull => true
  | .vundef => true
  | _ => false

/-- Is the value a JavaScript object (`typeof value === 'object'` after the
null check on line 79)? -/
def JSValue.isObj : JSValue → Bool
  | .vobj _ => true
  | _ => false

/-- JSON string escaping for the characters that can occur in the logged
keys and values of this development (backslash and double quote). -/
def escapeJsonChar (c : Char) : String :=
  if c = '\\' then "\\\\"
  else if c = '"' then "\\\""
  else String.singleton c

/-- Escape a string for inclusion in a JSON document. -/
def escapeJson (s : String) : String :=
  String.join (s.toList.map escapeJsonChar)

mutual

/-- `JSON.stringify` on the modelled value universe.  Object members whose
value is `undefined` are skipped, as `JSON.stringify` does. -/
def jsonStringify : JSValue → String
  | JSValue.vnull => "null"
  | JSValue.vundef => "undefined"
  | JSValue.vbool b => if b then "true" else "false"
  | JSValue.vnum n => toString n
  | JSValue.vstr s => "\"" ++ escapeJson s ++ "\""
  | JSValue.vobj l => "\x7b" ++ String.intercalate "," (jsonMembers l) ++ "\x7d"

/-- The serialized `"key":value` members of a JSON object. -/
def jsonMembers : List (String × JSValue) → List String
  | [] => []
  | (_, JSValue.vundef) :: rest => jsonMembers rest
  | (k, v) :: rest =>
      ("\"" ++ escapeJson k ++ "\":" ++ jsonStringify v) :: jsonMembers rest

end

/-- JavaScript `String(value)` coercion on the modelled values. -/
def jsString : JSValue → String
  | JSValue.vnull => "null"
  | JSValue.vundef => "undefined"
  | JSValue.vbool b => if b then "true" else "false"
  | JSValue.vnum n => toString n
  | JSValue.vstr s => s
  | JSValue.vobj _ => "[object Object]"

/-- The value conversion applied by `extractMetadata` (lines 79-83):
objects are `JSON.stringify`-ed, everything else goes through `String`. -/
def encodeFieldValue (v : JSValue) : String :=
  if v.isObj then jsonStringify v else jsString v

/-- `ParseableTransport.extractMetadata` (lines 73-89): walk the entries of
the winston `info` object, drop the reserved keys `level`, `message`,
`timestamp`, drop `null`/`undefined` values, stringify the rest.
(The `Symbol.for` entries in the source's reserved list are dead code:
`Object.entries` never yields symbol keys.) -/
def extractMetadata (info : List (String × JSValue)) : List (String × String) :=
  info.filterMap fun p =>
    if p.1 = "level" ∨ p.1 = "message" ∨ p.1 = "timestamp" then none
    else if p.2.isNullish then none
    else some (p.1, encodeFieldValue p.2)

/-- Assign key `k` to value `v` in a JavaScript object: if the key exists its
value is overwritten in place, otherwise the pair is appended. -/
def upsert (l : List (String × String)) (k v : String) : List (String × String) :=
  if l.any (fun p => p.1 = k) then
    l.map (fun p => if p.1 = k then (k, v) else p)
  else l ++ [(k, v)]

/-- Evaluate a JavaScript object literal: assign the listed key/value pairs
left to right into an initially empty object. -/
def mkObject (entries : List (String × String)) : List (String × String) :=
  entries.foldl (fun acc p => upsert acc p.1 p.2) []

/-- JavaScript `String.prototype.toUpperCase` on the modelled strings,
applied characterwise. -/
def jsToUpper (s : String) : String :=
  String.mk (s.data.map Char.toUpper)

/-- The winston `info` object seen by `log`: a `level` entry, a `message`
entry, then the caller-supplied metadata fields. -/
def mkInfo (level message : String) (fields : List (String × JSValue)) :
    List (String × JSValue) :=
  ("level", JSValue.vstr level) :: ("message", JSValue.vstr message) :: fields

/-- The `logEntry` object literal built by `log` (lines 53-60):
`p_timestamp`, the uppercased level, the message, the stamped `service` and
`logger` entries, then the spread of `extractMetadata(info)`. -/
def mkLogEntry (level message ts : String) (fields : List (String × JSValue)) :
    List (String × String) :=
  mkObject ([("p_timestamp", ts),
             ("level", jsToUpper level),
             ("message", message),
             ("service", "n8n-comprehensive"),
             ("logger", "winston")]
            ++ extractMetadata (mkInfo level message fields))

/-- One OTLP log record as assembled by `sendToParseable` (lines 140-152),
restricted to the components the specification talks about (the
`timeUnixNano` field is wall-clock arithmetic on the timestamp string and
is not modelled). -/
structure LogRecord where
  severityText : String
  bodyStringValue : String
  attributes : List (String × String)
deriving Repr, DecidableEq

/-- JavaScript property read `log[k]` on a string-valued object,
`"undefined"` when the key is absent (never hit by entries built by
`mkLogEntry`). -/
def lookupStr (log : List (String × String)) (k : String) : String :=
  match log.find? (fun p => p.1 = k) with
  | some p => p.2
  | none => "undefined"

/-- Encode one batched `logEntry` object into an OTLP log record
(lines 140-152): `severityText` is `log.level`, the body holds
`log.message`, and the attributes are all remaining entries except
`p_timestamp`, `level` and `message`.  The source applies `String(value)`
to each attribute value; values here are already strings, on which that
coercion is the identity. -/
def encodeRecord (log : List (String × String)) : LogRecord :=
  { severityText := lookupStr log "level"
    bodyStringValue := lookupStr log "message"
    attributes :=
      log.filter fun p =>
        ¬ (p.1 = "p_timestamp" ∨ p.1 = "level" ∨ p.1 = "message") }

/-- The mutable state of a `ParseableTransport` instance, parametric in the
type of batched entries (the transport batches the `logEntry` objects of
`mkLogEntry`; the batching logic never inspects them).  `timerActive`
records whether the `setInterval` timer of `startBatchProcessor` is
installed.  The constructor (lines 20, 24-27, 43) sets `batch = []`,
`retryCount = 0`, `maxRetries = 3`, `batchSize` from the options
(default 5) and starts the timer. -/
structure TState (α : Type) where
  batch : List α
  retryCount : Nat
  timerActive : Bool
  maxRetries : Nat
  batchSize : Nat
deriving Repr, DecidableEq

/-- The state of a freshly constructed transport with batch size `bs`. -/
def initState (α : Type) (bs : Nat) : TState α :=
  { batch := [], retryCount := 0, timerActive := true, maxRetries := 3,
    batchSize := bs }

/-- JavaScript `list.slice(-n)`: the final `n` elements of the list (the
whole list when it has fewer than `n`). -/
def sliceLast (l : List α) (n : Nat) : List α :=
  l.drop (l.length - n)

/-- The synchronous head of `flush` (lines 103-107): return immediately on
an empty batch, otherwise drain the shared batch into a local snapshot
(returned as the second component, handed to `sendToParseable`) and leave
the shared batch empty before any network I/O starts. -/
def flushBegin (st : TState α) : TState α × Option (List α) :=
  if st.batch.isEmpty then (st, none)
  else ({ st with batch := [] }, some st.batch)

/-- The `catch` branch of `flush` (lines 112-121): when the retry budget is
not exhausted, increment `retryCount` and `unshift` the last three events
of the failed snapshot onto the front of the shared batch; otherwise leave
the state untouched (the snapshot is simply dropped). -/
def flushFail (st : TState α) (snapshot : List α) : TState α :=
  if st.retryCount < st.maxRetries then
    { st with retryCount := st.retryCount + 1,
              batch := sliceLast snapshot 3 ++ st.batch }
  else st

/-- Completion of the in-flight send for a drained snapshot.
`sendToParseable` resolves exactly when the HTTP status is in 200-299
(line 181) and rejects on any other status, on a network error or on the
request timeout (`status = none`); `flush` then resets `retryCount` on
success (line 111) and runs the retry logic on failure. -/
def flushEnd (st : TState α) (snapshot : List α) (status : Option Nat) :
    TState α :=
  match status with
  | some s =>
      if 200 ≤ s ∧ s < 300 then { st with retryCount := 0 }
      else flushFail st snapshot
  | none => flushFail st snapshot

/-- `ParseableTransport.log` (lines 51-71) at the batching level: push the
entry, and when the batch has reached `batchSize`, invoke `flush`, whose
synchronous part drains the batch and initiates the send.  The returned
option is the snapshot handed to the network layer; its completion
(`flushEnd`) is a separate later step, so `log` never waits for the send.
The winston callback is always scheduled via `setImmediate`, so no failure
reaches the caller. -/
def logStep (st : TState α) (e : α) : TState α × Option (List α) :=
  let st1 := { st with batch := st.batch ++ [e] }
  if st.batchSize ≤ st1.batch.length then flushBegin st1
  else (st1, none)

/-- Accept a sequence of events, keeping only the resulting state. -/
def acceptAll (st : TState α) (es : List α) : TState α :=
  es.foldl (fun s e => (logStep s e).1) st

/-- One tick of the `setInterval` timer installed by `startBatchProcessor`
(lines 96-100): when the timer is installed and the batch is non-empty,
invoke `flush`; the drained snapshot, if any, is returned. -/
def timerTick (st : TState α) : TState α × Option (List α) :=
  if st.timerActive ∧ st.batch.length > 0 then flushBegin st
  else (st, none)

/-- `ParseableTransport.close` (lines 204-213): clear the interval timer,
then, when the batch is non-empty, invoke `flush` once; the drained
snapshot of that final attempt, if any, is returned. -/
def closeStep (st : TState α) : TState α × Option (List α) :=
  let st1 := { st with timerActive := false }
  if st1.batch.length > 0 then flushBegin st1
  else (st1, none)

/-- One whole failing flush generation: the synchronous drain followed by a
failed send of the drained snapshot.  When the batch is empty, `flush`
returns without sending. -/
def genFail (st : TState α) : TState α :=
  match flushBegin st with
  | (s, some snap) => flushEnd s snap none
  | (s, none) => s

/-- Iterate `n` consecutive failed sends of the same snapshot against the
retry logic (used to model a run of failed flushes for the retry-reset
property). -/
def failTimes (st : TState α) (snapshot : List α) : Nat → TState α
  | 0 => st
  | n + 1 => flushFail (failTimes st snapshot n) snapshot

/-! ## Basic facts about the retry step -/

theorem flushFail_maxRetries (st : TState α) (snap : List α) :
    (flushFail st snap).maxRetries = st.maxRetries := by
  unfold flushFail; split <;> rfl

theorem flushFail_timerActive (st : TState α) (snap : List α) :
    (flushFail st snap).timerActive = st.timerActive := by
  unfold flushFail; split <;> rfl

theorem flushFail_batchSize (st : TState α) (snap : List α) :
    (flushFail st snap).batchSize = st.batchSize := by
  unfold flushFail; split <;> rfl

theorem flushFail_retryCount_of_lt {st : TState α} (snap : List α)
    (h : st.retryCount < st.maxRetries) :
    (flushFail st snap).retryCount = st.retryCount + 1 := by
  unfold flushFail; rw [if_pos h]

theorem sliceLast_length (l : List α) (n : Nat) :
    (sliceLast l n).length = min n l.length := by
  unfold sliceLast; rw [List.length_drop]; omega

theorem sliceLast_suffix (l : List α) (n : Nat) : sliceLast l n <:+ l :=
  List.drop_suffix _ _

theorem sliceLast_of_length_le {l : List α} {n : Nat} (h : l.length ≤ n) :
    sliceLast l n = l := by
  unfold sliceLast
  have : l.length - n = 0 := by omega
  rw [this, List.drop_zero]

theorem sliceLast_ne_nil {l : List α} (n : Nat) (h : l ≠ []) (hn : 0 < n) :
    sliceLast l n ≠ [] := by
  unfold sliceLast
  intro hcon
  rw [List.drop_eq_nil_iff] at hcon
  have : 0 < l.length := List.length_pos.mpr h
  omega

/-- C1 counterexample: in the state reached after exhausting the retry
budget (`retryCount` strictly above `maxRetries = 3`), a further failed
send leaves the drained snapshot dropped (nothing is re-inserted into the
empty shared batch), but the attempt counter stays at its old value; it is
not reset to zero as the claim states. -/
theorem c1_terminal_drop_cex :
    ({ batch := [], retryCount := 4, timerActive := true, maxRetries := 3,
       batchSize := 5 : TState Nat }).maxRetries <
      ({ batch := [], retryCount := 4, timerActive := true, maxRetries := 3,
         batchSize := 5 : TState Nat }).retryCount ∧
    (flushFail
      { batch := [], retryCount := 4, timerActive := true, maxRetries := 3,
        batchSize := 5 : TState Nat } [7]).batch = [] ∧
    (flushFail
      { batch := [], retryCount := 4, timerActive := true, maxRetries := 3,
        batchSize := 5 : TState Nat } [7]).retryCount ≠ 0 := by
  decide

/-- C1 (amended): when a send fails while the retry attempt counter has
reached (or passed) `maxRetries`, the drained snapshot is dropped entirely
— no events are re-inserted into the shared batch — and the attempt
counter is left unchanged; it is reset only by a later successful send. -/
theorem c1_terminal_drop {α : Type} (st : TState α) (snapshot : List α)
    (h : st.maxRetries ≤ st.retryCount) :
    (flushFail st snapshot).batch = st.batch ∧
    (flushFail st snapshot).retryCount = st.retryCount := by
  unfold flushFail
  rw [if_neg (by omega)]
  exact ⟨rfl, rfl⟩

theorem c1_terminal_drop_witness :
    (flushFail
      { batch := [], retryCount := 4, timerActive := true, maxRetries := 3,
        batchSize := 5 : TState Nat } [9]).batch = [] ∧
    (flushFail
      { batch := [], retryCount := 4, timerActive := true, maxRetries := 3,
        batchSize := 5 : TState Nat } [9]).retryCount = 4 :=
  c1_terminal_drop
    { batch := [], retryCount := 4, timerActive := true, maxRetries := 3,
      batchSize := 5 : TState Nat } [9] (by decide)

/-- C5: when a send fails with retry budget remaining, exactly the most
recent three events of the drained snapshot (all of it when it holds fewer
than three), in their original order, are re-inserted at the front of the
shared batch, ahead of any events accepted during the send; the older
snapshot events are discarded and the attempt counter is incremented. -/
theorem c5_requeue_last_three {α : Type} (st : TState α) (snapshot : List α)
    (h : st.retryCount < st.maxRetries) :
    (flushFail st snapshot).batch = sliceLast snapshot 3 ++ st.batch ∧
    (sliceLast snapshot 3).length = min 3 snapshot.length ∧
    sliceLast snapshot 3 <:+ snapshot ∧
    (snapshot.length ≤ 3 → sliceLast snapshot 3 = snapshot) ∧
    (flushFail st snapshot).retryCount = st.retryCount + 1 := by
  refine ⟨?_, sliceLast_length _ _, sliceLast_suffix _ _,
    fun hle => sliceLast_of_length_le hle, flushFail_retryCount_of_lt _ h⟩
  unfold flushFail
  rw [if_pos h]

theorem c5_requeue_last_three_witness :
    (flushFail
      { batch := [100, 101], retryCount := 1, timerActive := true,
        maxRetries := 3, batchSize := 5 : TState Nat }
      [1, 2, 3, 4, 5]).batch = [3, 4, 5, 100, 101] ∧
    (sliceLast [1, 2, 3, 4, 5] 3).length = min 3 5 ∧
    sliceLast [1, 2, 3, 4, 5] 3 <:+ [1, 2, 3, 4, 5] ∧
    ([1, 2, 3, 4, 5].length ≤ 3 → sliceLast [1, 2, 3, 4, 5] 3 = [1, 2, 3, 4, 5]) ∧
    (flushFail
      { batch := [100, 101], retryCount := 1, timerActive := true,
        maxRetries := 3, batchSize := 5 : TState Nat }
      [1, 2, 3, 4, 5]).retryCount = 2 :=
  c5_requeue_last_three
    { batch := [100, 101], retryCount := 1, timerActive := true,
      maxRetries := 3, batchSize := 5 : TState Nat }
    [1, 2, 3, 4, 5] (by decide)

theorem failTimes_retryCount {α : Type} (st : TState α) (snap : List α) :
    ∀ n : Nat, st.retryCount = 0 → n ≤ st.maxRetries →
      (failTimes st snap n).retryCount = n ∧
      (failTimes st snap n).maxRetries = st.maxRetries
  | 0, h0, _ => ⟨h0, rfl⟩
  | n + 1, h0, hn => by
      obtain ⟨ih1, ih2⟩ := failTimes_retryCount st snap n h0 (by omega)
      unfold failTimes
      constructor
      · rw [flushFail_retryCount_of_lt _ (by omega), ih1]
      · rw [flushFail_maxRetries, ih2]

/-- C6: a send completing with an HTTP status in 200-299 resets the retry
attempt counter to zero, whatever its previous value; consequently after
`N < maxRetries` consecutive failures followed by one successful send, the
next failure is counted as attempt 1, not attempt `N + 1`. -/
theorem c6_success_resets {α : Type} (stAny st : TState α)
    (snapA snap snap2 : List α) (s : Nat) (N : Nat)
    (h200 : 200 ≤ s) (h300 : s < 300)
    (h0 : st.retryCount = 0) (hN : N < st.maxRetries) :
    (flushEnd stAny snapA (some s)).retryCount = 0 ∧
    (failTimes st snap N).retryCount = N ∧
    (flushEnd (failTimes st snap N) snap (some s)).retryCount = 0 ∧
    (flushFail (flushEnd (failTimes st snap N) snap (some s))
      snap2).retryCount = 1 := by
  obtain ⟨hrc, hmax⟩ := failTimes_retryCount st snap N h0 (by omega)
  have hok : 200 ≤ s ∧ s < 300 := ⟨h200, h300⟩
  have hend : ∀ st' : TState α, (flushEnd st' snap (some s)).retryCount = 0 := by
    intro st'
    simp only [flushEnd]
    rw [if_pos hok]
  have hendA : (flushEnd stAny snapA (some s)).retryCount = 0 := by
    simp only [flushEnd]
    rw [if_pos hok]
  refine ⟨hendA, hrc, hend _, ?_⟩
  have hmax' : (flushEnd (failTimes st snap N) snap (some s)).maxRetries =
      st.maxRetries := by
    simp only [flushEnd]
    rw [if_pos hok]
    exact hmax
  rw [flushFail_retryCount_of_lt _ (by rw [hend, hmax']; omega), hend]

theorem c6_success_resets_witness :
    (flushEnd
      { batch := [], retryCount := 2, timerActive := true, maxRetries := 3,
        batchSize := 5 : TState Nat } [8] (some 204)).retryCount = 0 ∧
    (failTimes (initState Nat 5) [1, 2] 2).retryCount = 2 ∧
    (flushEnd (failTimes (initState Nat 5) [1, 2] 2) [1, 2]
      (some 204)).retryCount = 0 ∧
    (flushFail (flushEnd (failTimes (initState Nat 5) [1, 2] 2) [1, 2]
      (some 204)) [3]).retryCount = 1 :=
  c6_success_resets
    { batch := [], retryCount := 2, timerActive := true, maxRetries := 3,
      batchSize := 5 : TState Nat }
    (initState Nat 5) [8] [1, 2] [3] 204 2
    (by decide) (by decide) (by decide) (by decide)

theorem flushBegin_of_ne_nil {α : Type} {st : TState α} (hb : st.batch ≠ []) :
    flushBegin st = ({ st with batch := [] }, some st.batch) := by
  unfold flushBegin
  rw [if_neg (by simp [hb])]

theorem genFail_requeue {α : Type} (st : TState α) (hb : st.batch ≠ [])
    (hr : st.retryCount < st.maxRetries) :
    genFail st = { st with batch := sliceLast st.batch 3,
                           retryCount := st.retryCount + 1 } := by
  unfold genFail
  rw [flushBegin_of_ne_nil hb]
  simp only [flushEnd, flushFail]
  rw [if_pos (by exact hr)]
  simp

theorem genFail_terminal {α : Type} (st : TState α) (hb : st.batch ≠ [])
    (hr : st.maxRetries ≤ st.retryCount) :
    genFail st = { st with batch := [] } := by
  unfold genFail
  rw [flushBegin_of_ne_nil hb]
  simp only [flushEnd, flushFail]
  rw [if_neg (by omega)]

/-- C7: with `maxRetries = 3` and a zero attempt counter, three consecutive
send failures each leave the last-three suffix of the original batch
requeued (so each failing generation is retried), while the fourth
consecutive failure drains the batch and requeues nothing — the batch is
dropped and never retried a fourth time. -/
theorem c7_retry_bound {α : Type} (st : TState α)
    (h0 : st.retryCount = 0) (hm : st.maxRetries = 3) (hb : st.batch ≠ []) :
    sliceLast st.batch 3 ≠ [] ∧
    (genFail st).retryCount = 1 ∧
    (genFail st).batch = sliceLast st.batch 3 ∧
    (genFail (genFail st)).retryCount = 2 ∧
    (genFail (genFail st)).batch = sliceLast st.batch 3 ∧
    (genFail (genFail (genFail st))).retryCount = 3 ∧
    (genFail (genFail (genFail st))).batch = sliceLast st.batch 3 ∧
    (genFail (genFail (genFail (genFail st)))).retryCount = 3 ∧
    (genFail (genFail (genFail (genFail st)))).batch = [] := by
  have hs : sliceLast st.batch 3 ≠ [] := sliceLast_ne_nil 3 hb (by omega)
  have hidem : sliceLast (sliceLast st.batch 3) 3 = sliceLast st.batch 3 :=
    sliceLast_of_length_le (by rw [sliceLast_length]; omega)
  have h1 : genFail st = { st with batch := sliceLast st.batch 3,
                                   retryCount := 1 } := by
    rw [genFail_requeue st hb (by omega), h0]
  have h2 : genFail (genFail st) =
      { st with batch := sliceLast st.batch 3, retryCount := 2 } := by
    rw [h1, genFail_requeue _ (by exact hs) (by simp [hm]), hidem]
  have h3 : genFail (genFail (genFail st)) =
      { st with batch := sliceLast st.batch 3, retryCount := 3 } := by
    rw [h2, genFail_requeue _ (by exact hs) (by simp [hm]), hidem]
  have h4 : genFail (genFail (genFail (genFail st))) =
      { st with batch := [], retryCount := 3 } := by
    rw [h3, genFail_terminal _ (by exact hs) (by simp [hm])]
  rw [h4, h3, h2, h1]
  exact ⟨hs, rfl, rfl, rfl, rfl, rfl, rfl, rfl, rfl⟩

theorem c7_retry_bound_witness :
    sliceLast [1, 2, 3, 4] 3 ≠ [] ∧
    (genFail
      { batch := [1, 2, 3, 4], retryCount := 0, timerActive := true,
        maxRetries := 3, batchSize := 5 : TState Nat }).retryCount = 1 ∧
    (genFail
      { batch := [1, 2, 3, 4], retryCount := 0, timerActive := true,
        maxRetries := 3, batchSize := 5 : TState Nat }).batch =
      sliceLast [1, 2, 3, 4] 3 ∧
    (genFail (genFail
      { batch := [1, 2, 3, 4], retryCount := 0, timerActive := true,
        maxRetries := 3, batchSize := 5 : TState Nat })).retryCount = 2 ∧
    (genFail (genFail
      { batch := [1, 2, 3, 4], retryCount := 0, timerActive := true,
        maxRetries := 3, batchSize := 5 : TState Nat })).batch =
      sliceLast [1, 2, 3, 4] 3 ∧
    (genFail (genFail (genFail
      { batch := [1, 2, 3, 4], retryCount := 0, timerActive := true,
        maxRetries := 3, batchSize := 5 : TState Nat }))).retryCount = 3 ∧
    (genFail (genFail (genFail
      { batch := [1, 2, 3, 4], retryCount := 0, timerActive := true,
        maxRetries := 3, batchSize := 5 : TState Nat }))).batch =
      sliceLast [1, 2, 3, 4] 3 ∧
    (genFail (genFail (genFail (genFail
      { batch := [1, 2, 3, 4], retryCount := 0, timerActive := true,
        maxRetries := 3, batchSize := 5 : TState Nat })))).retryCount = 3 ∧
    (genFail (genFail (genFail (genFail
      { batch := [1, 2, 3, 4], retryCount := 0, timerActive := true,
        maxRetries := 3, batchSize := 5 : TState Nat })))).batch = [] :=
  c7_retry_bound
    { batch := [1, 2, 3, 4], retryCount := 0, timerActive := true,
      maxRetries := 3, batchSize := 5 : TState Nat }
    (by decide) (by decide) (by decide)

/-- C8: each `log` call appends exactly one entry to the batch (the model is
a total function, so no failure ever reaches the caller), and exactly when
the append brings the batch length to at least `batchSize` the flush is
triggered at once: the enlarged batch (old contents plus the new entry) is
drained into the snapshot handed to the asynchronous sender, whose
completion (`flushEnd`) is a separate later step that `log` does not wait
for.  Below the threshold no flush is triggered and the appended batch is
kept. -/
theorem c8_accept_appends {α : Type} (st : TState α) (e : α) :
    (st.batch.length + 1 < st.batchSize →
      logStep st e = ({ st with batch := st.batch ++ [e] }, none)) ∧
    (st.batchSize ≤ st.batch.length + 1 →
      logStep st e = ({ st with batch := [] }, some (st.batch ++ [e]))) := by
  constructor
  · intro h
    unfold logStep
    rw [if_neg (by simp; omega)]
  · intro h
    unfold logStep
    rw [if_pos (by simp; omega)]
    exact flushBegin_of_ne_nil (by simp)

theorem c8_accept_appends_witness :
    (logStep
      { batch := [1, 2], retryCount := 0, timerActive := true,
        maxRetries := 3, batchSize := 5 : TState Nat } 9 =
      ({ batch := [1, 2, 9], retryCount := 0, timerActive := true,
         maxRetries := 3, batchSize := 5 : TState Nat }, none)) ∧
    (logStep
      { batch := [1, 2, 3, 4], retryCount := 0, timerActive := true,
        maxRetries := 3, batchSize := 5 : TState Nat } 9 =
      ({ batch := [], retryCount := 0, timerActive := true,
         maxRetries := 3, batchSize := 5 : TState Nat },
       some [1, 2, 3, 4, 9])) :=
  ⟨(c8_accept_appends
      { batch := [1, 2], retryCount := 0, timerActive := true,
        maxRetries := 3, batchSize := 5 : TState Nat } 9).1 (by decide),
   (c8_accept_appends
      { batch := [1, 2, 3, 4], retryCount := 0, timerActive := true,
        maxRetries := 3, batchSize := 5 : TState Nat } 9).2 (by decide)⟩

/-- C9: `close` clears the interval timer, so a timer tick in any later
state (where the timer is still cleared, as every other transport
operation leaves `timerActive` untouched) never triggers a flush; when the
batch is non-empty at close time exactly one final flush attempt is made,
draining all remaining events, and when the batch is empty no delivery
attempt is made. -/
theorem c9_close_final {α : Type} (st stA stB : TState α) (eA : α)
    (snapB : List α) (statusB : Option Nat) :
    (closeStep st).1.timerActive = false ∧
    (st.batch ≠ [] →
      (closeStep st).2 = some st.batch ∧ (closeStep st).1.batch = []) ∧
    (st.batch = [] →
      closeStep st = ({ st with timerActive := false }, none)) ∧
    (stA.timerActive = false → timerTick stA = (stA, none)) ∧
    (logStep stA eA).1.timerActive = stA.timerActive ∧
    (flushBegin stA).1.timerActive = stA.timerActive ∧
    (flushEnd stB snapB statusB).timerActive = stB.timerActive := by
  refine ⟨?_, ?_, ?_, ?_, ?_, ?_, ?_⟩
  · unfold closeStep
    dsimp only
    split
    · unfold flushBegin
      split <;> rfl
    · rfl
  · intro hb
    unfold closeStep
    dsimp only
    rw [if_pos (by simp [List.length_pos]; exact hb)]
    rw [@flushBegin_of_ne_nil α { st with timerActive := false }
      (by simpa using hb)]
    exact ⟨rfl, rfl⟩
  · intro hb
    unfold closeStep
    dsimp only
    rw [if_neg (by simp [hb])]
  · intro ht
    unfold timerTick
    rw [if_neg (by simp [ht])]
  · unfold logStep
    dsimp only
    split
    · unfold flushBegin
      split <;> rfl
    · rfl
  · unfold flushBegin
    split <;> rfl
  · cases statusB with
    | none => simp only [flushEnd]; rw [flushFail_timerActive]
    | some s =>
      simp only [flushEnd]
      split
      · rfl
      · rw [flushFail_timerActive]

theorem c9_close_final_witness :
    (closeStep
      { batch := [1, 2], retryCount := 0, timerActive := true,
        maxRetries := 3, batchSize := 5 : TState Nat }).1.timerActive
        = false ∧
    (closeStep
      { batch := [1, 2], retryCount := 0, timerActive := true,
        maxRetries := 3, batchSize := 5 : TState Nat }).2 = some [1, 2] ∧
    (closeStep
      { batch := [1, 2], retryCount := 0, timerActive := true,
        maxRetries := 3, batchSize := 5 : TState Nat }).1.batch = [] ∧
    timerTick
      { batch := [4], retryCount := 0, timerActive := false,
        maxRetries := 3, batchSize := 5 : TState Nat } =
      ({ batch := [4], retryCount := 0, timerActive := false,
         maxRetries := 3, batchSize := 5 : TState Nat }, none) := by
  have h := c9_close_final
    { batch := [1, 2], retryCount := 0, timerActive := true,
      maxRetries := 3, batchSize := 5 : TState Nat }
    { batch := [4], retryCount := 0, timerActive := false,
      maxRetries := 3, batchSize := 5 : TState Nat }
    ({ batch := [], retryCount := 0, timerActive := true,
       maxRetries := 3, batchSize := 5 : TState Nat }) 8 [9] none
  exact ⟨h.1, (h.2.1 (by decide)).1, (h.2.1 (by decide)).2,
    h.2.2.2.1 (by decide)⟩

theorem acceptAll_no_trigger {α : Type} :
    ∀ (es : List α) (st : TState α),
      st.batch.length + es.length < st.batchSize →
      acceptAll st es = { st with batch := st.batch ++ es }
  | [], st, _ => by simp [acceptAll]
  | e :: es, st, h => by
      have hstep : (logStep st e).1 = { st with batch := st.batch ++ [e] } := by
        unfold logStep
        rw [if_neg (by simp at h ⊢; omega)]
      unfold acceptAll
      rw [List.foldl_cons, hstep]
      have ih := acceptAll_no_trigger es { st with batch := st.batch ++ [e] }
        (by simp at h ⊢; omega)
      unfold acceptAll at ih
      rw [ih]
      simp

/-- C4: a flush first moves the whole current batch into a local snapshot
and leaves the shared batch empty before any network I/O (the send and its
completion act only on the snapshot), so the shared batch afterwards holds
exactly the events accepted after the drain; and any event accepted while
the send is in flight (and not equal to a requeued suffix event) occurs in
the next flush's snapshot exactly as often as it was accepted — never lost,
never duplicated — whatever the outcome of the in-flight send; when that
send succeeds the next snapshot is exactly the events accepted during it. -/
theorem c4_drain_isolation {α : Type} [DecidableEq α] (st : TState α)
    (es : List α) (status : Option Nat) (e : α) (s : Nat)
    (hb : st.batch ≠ []) (hes : es ≠ []) (hlen : es.length < st.batchSize)
    (he : e ∉ sliceLast st.batch 3) :
    (flushBegin st).2 = some st.batch ∧
    (flushBegin st).1.batch = [] ∧
    (acceptAll (flushBegin st).1 es).batch = es ∧
    ((flushBegin (flushEnd (acceptAll (flushBegin st).1 es) st.batch
        status)).2.getD []).count e = es.count e ∧
    (status = some s → 200 ≤ s → s < 300 →
      (flushBegin (flushEnd (acceptAll (flushBegin st).1 es) st.batch
        status)).2 = some es) := by
  have hfb := flushBegin_of_ne_nil hb
  rw [hfb]
  dsimp only
  have hacc : acceptAll { st with batch := ([] : List α) } es =
      { st with batch := es } := by
    rw [acceptAll_no_trigger es _ (by simpa using hlen)]
    simp
  rw [hacc]
  refine ⟨rfl, rfl, rfl, ?_, ?_⟩
  · obtain ⟨X, hX, heX⟩ :
        ∃ X : List α,
          (flushEnd { st with batch := es } st.batch status).batch = X ++ es ∧
          e ∉ X := by
      cases status with
      | none =>
        simp only [flushEnd, flushFail]
        split
        · exact ⟨sliceLast st.batch 3, by simp, he⟩
        · exact ⟨[], by simp, by simp⟩
      | some sVal =>
        simp only [flushEnd, flushFail]
        split
        · exact ⟨[], by simp, by simp⟩
        · split
          · exact ⟨sliceLast st.batch 3, by simp, he⟩
          · exact ⟨[], by simp, by simp⟩
    have hne : (flushEnd { st with batch := es } st.batch status).batch ≠ [] := by
      rw [hX]
      intro hcon
      rw [List.append_eq_nil] at hcon
      exact hes hcon.2
    rw [flushBegin_of_ne_nil hne]
    simp only [Option.getD_some]
    rw [hX, List.count_append, List.count_eq_zero.mpr heX]
    omega
  · intro hst h200 h300
    subst hst
    simp only [flushEnd]
    rw [if_pos (⟨h200, h300⟩ : 200 ≤ s ∧ s < 300)]
    rw [@flushBegin_of_ne_nil α { st with batch := es, retryCount := 0 } hes]

theorem c4_drain_isolation_witness :
    (flushBegin
      { batch := [1, 2, 3, 4, 5], retryCount := 0, timerActive := true,
        maxRetries := 3, batchSize := 20 : TState Nat }).2 =
      some [1, 2, 3, 4, 5] ∧
    (flushBegin
      { batch := [1, 2, 3, 4, 5], retryCount := 0, timerActive := true,
        maxRetries := 3, batchSize := 20 : TState Nat }).1.batch = [] ∧
    (acceptAll (flushBegin
      { batch := [1, 2, 3, 4, 5], retryCount := 0, timerActive := true,
        maxRetries := 3, batchSize := 20 : TState Nat }).1
      [6, 7, 8, 9, 10, 11, 12, 13, 14, 15]).batch =
      [6, 7, 8, 9, 10, 11, 12, 13, 14, 15] ∧
    ((flushBegin (flushEnd (acceptAll (flushBegin
      { batch := [1, 2, 3, 4, 5], retryCount := 0, timerActive := true,
        maxRetries := 3, batchSize := 20 : TState Nat }).1
      [6, 7, 8, 9, 10, 11, 12, 13, 14, 15]) [1, 2, 3, 4, 5]
      (some 200))).2.getD []).count 10 =
      [6, 7, 8, 9, 10, 11, 12, 13, 14, 15].count 10 ∧
    (some 200 = some 200 → 200 ≤ 200 → 200 < 300 →
      (flushBegin (flushEnd (acceptAll (flushBegin
        { batch := [1, 2, 3, 4, 5], retryCount := 0, timerActive := true,
          maxRetries := 3, batchSize := 20 : TState Nat }).1
        [6, 7, 8, 9, 10, 11, 12, 13, 14, 15]) [1, 2, 3, 4, 5]
        (some 200))).2 = some [6, 7, 8, 9, 10, 11, 12, 13, 14, 15]) :=
  c4_drain_isolation
    { batch := [1, 2, 3, 4, 5], retryCount := 0, timerActive := true,
      maxRetries := 3, batchSize := 20 : TState Nat }
    [6, 7, 8, 9, 10, 11, 12, 13, 14, 15] (some 200) 10 200
    (by decide) (by decide) (by decide) (by decide)

/-- C2: the event with level `ERROR`, message `boom` and fields
`code = 42`, `nested = (a : 1)` is encoded (for any timestamp) with
`severityText = "ERROR"`, body string `"boom"`, attributes containing
`code -> "42"` and `nested -> "(a:1)"` JSON-stringified, and no attribute
keyed `level`, `message` or `timestamp`. -/
theorem c2_encoding (ts : String) :
    (encodeRecord (mkLogEntry "ERROR" "boom" ts
      [("code", JSValue.vnum 42),
       ("nested", JSValue.vobj [("a", JSValue.vnum 1)])])).severityText =
        "ERROR" ∧
    (encodeRecord (mkLogEntry "ERROR" "boom" ts
      [("code", JSValue.vnum 42),
       ("nested", JSValue.vobj [("a", JSValue.vnum 1)])])).bodyStringValue =
        "boom" ∧
    ("code", "42") ∈ (encodeRecord (mkLogEntry "ERROR" "boom" ts
      [("code", JSValue.vnum 42),
       ("nested", JSValue.vobj [("a", JSValue.vnum 1)])])).attributes ∧
    ("nested", "\x7b\"a\":1\x7d") ∈ (encodeRecord (mkLogEntry "ERROR" "boom" ts
      [("code", JSValue.vnum 42),
       ("nested", JSValue.vobj [("a", JSValue.vnum 1)])])).attributes ∧
    (∀ kv ∈ (encodeRecord (mkLogEntry "ERROR" "boom" ts
      [("code", JSValue.vnum 42),
       ("nested", JSValue.vobj [("a", JSValue.vnum 1)])])).attributes,
      kv.1 ≠ "level" ∧ kv.1 ≠ "message" ∧ kv.1 ≠ "timestamp") := by
  have hup : jsToUpper "ERROR" = "ERROR" := by decide
  have hmeta : extractMetadata (mkInfo "ERROR" "boom"
      [("code", JSValue.vnum 42),
       ("nested", JSValue.vobj [("a", JSValue.vnum 1)])]) =
      [("code", "42"), ("nested", "\x7b\"a\":1\x7d")] := by decide
  have hentry : mkLogEntry "ERROR" "boom" ts
      [("code", JSValue.vnum 42),
       ("nested", JSValue.vobj [("a", JSValue.vnum 1)])] =
      [("p_timestamp", ts), ("level", "ERROR"), ("message", "boom"),
       ("service", "n8n-comprehensive"), ("logger", "winston"),
       ("code", "42"), ("nested", "\x7b\"a\":1\x7d")] := by
    simp [mkLogEntry, hup, hmeta, mkObject, upsert]
  rw [hentry]
  have hattr : (encodeRecord
      [("p_timestamp", ts), ("level", "ERROR"), ("message", "boom"),
       ("service", "n8n-comprehensive"), ("logger", "winston"),
       ("code", "42"), ("nested", "\x7b\"a\":1\x7d")]).attributes =
      [("service", "n8n-comprehensive"), ("logger", "winston"),
       ("code", "42"), ("nested", "\x7b\"a\":1\x7d")] := by
    simp [encodeRecord, List.filter]
  refine ⟨?_, ?_, ?_, ?_, ?_⟩
  · simp [encodeRecord, lookupStr, List.find?]
  · simp [encodeRecord, lookupStr, List.find?]
  · rw [hattr]; simp
  · rw [hattr]; simp
  · rw [hattr]
    intro kv hkv
    simp only [List.mem_cons, List.not_mem_nil, or_false] at hkv
    rcases hkv with rfl | rfl | rfl | rfl <;>
      exact ⟨by decide, by decide, by decide⟩

/-! ## Membership facts about JavaScript object construction -/

theorem mem_upsert_self (l : List (String × String)) (k v : String) :
    (k, v) ∈ upsert l k v := by
  unfold upsert
  split
  · next h =>
    rw [List.any_eq_true] at h
    obtain ⟨p, hp, hpk⟩ := h
    rw [List.mem_map]
    refine ⟨p, hp, ?_⟩
    simp only [decide_eq_true_eq] at hpk
    rw [if_pos hpk]
  · exact List.mem_append_right _ (by simp)

theorem mem_upsert_of_ne {l : List (String × String)} {k' v' : String}
    (k v : String) (h : (k', v') ∈ l) (hne : k' ≠ k) :
    (k', v') ∈ upsert l k v := by
  unfold upsert
  split
  · rw [List.mem_map]
    exact ⟨(k', v'), h, by simp [hne]⟩
  · exact List.mem_append_left _ h

theorem mem_foldl_upsert {k v : String} :
    ∀ (rest : List (String × String)) (acc : List (String × String)),
      (k, v) ∈ acc → (∀ p ∈ rest, p.1 ≠ k) →
      (k, v) ∈ rest.foldl (fun a p => upsert a p.1 p.2) acc
  | [], _, h, _ => h
  | q :: rest, acc, h, hrest => by
      rw [List.foldl_cons]
      exact mem_foldl_upsert rest _
        (mem_upsert_of_ne q.1 q.2 h
          (Ne.symm (hrest q (List.mem_cons_self _ _))))
        (fun p hp => hrest p (List.mem_cons_of_mem _ hp))

theorem mem_mkObject_append (l1 l2 : List (String × String)) (k v : String)
    (h2 : ∀ p ∈ l2, p.1 ≠ k) :
    (k, v) ∈ mkObject (l1 ++ (k, v) :: l2) := by
  unfold mkObject
  rw [List.foldl_append, List.foldl_cons]
  exact mem_foldl_upsert l2 _ (mem_upsert_self _ _ _) h2

theorem extractMetadata_mkInfo (level message : String)
    (fields : List (String × JSValue)) :
    extractMetadata (mkInfo level message fields) = extractMetadata fields := by
  simp [extractMetadata, mkInfo, List.filterMap_cons]

theorem mem_extractMetadata_of {fields : List (String × JSValue)}
    {k : String} {v : JSValue} (h : (k, v) ∈ fields)
    (h1 : k ≠ "level") (h2 : k ≠ "message") (h3 : k ≠ "timestamp")
    (hv : v.isNullish = false) :
    (k, encodeFieldValue v) ∈ extractMetadata fields := by
  unfold extractMetadata
  rw [List.mem_filterMap]
  exact ⟨(k, v), h, by simp [h1, h2, h3, hv]⟩

theorem key_of_mem_extractMetadata {info : List (String × JSValue)}
    {p : String × String} (h : p ∈ extractMetadata info) :
    p.1 ∈ info.map Prod.fst ∧
    p.1 ≠ "level" ∧ p.1 ≠ "message" ∧ p.1 ≠ "timestamp" := by
  unfold extractMetadata at h
  rw [List.mem_filterMap] at h
  obtain ⟨q, hq, he⟩ := h
  by_cases hres : q.1 = "level" ∨ q.1 = "message" ∨ q.1 = "timestamp"
  · rw [if_pos hres] at he
    exact absurd he (by simp)
  · rw [if_neg hres] at he
    by_cases hn : q.2.isNullish
    · rw [if_pos hn] at he
      exact absurd he (by simp)
    · rw [if_neg hn] at he
      have hp1 : p.1 = q.1 := by
        rw [← Option.some_inj.mp he]
      push_neg at hres
      refine ⟨?_, by rw [hp1]; exact hres.1, by rw [hp1]; exact hres.2.1,
        by rw [hp1]; exact hres.2.2⟩
      rw [hp1]
      exact List.mem_map_of_mem Prod.fst hq

theorem keys_extractMetadata_sublist (info : List (String × JSValue)) :
    ((extractMetadata info).map Prod.fst).Sublist (info.map Prod.fst) := by
  induction info with
  | nil => simp [extractMetadata]
  | cons q rest ih =>
    unfold extractMetadata at ih ⊢
    rw [List.filterMap_cons]
    split
    · exact List.Sublist.cons _ (by simpa using ih)
    · next val heq =>
      have hval : val.1 = q.1 := by
        by_cases hres : q.1 = "level" ∨ q.1 = "message" ∨ q.1 = "timestamp"
        · rw [if_pos hres] at heq
          exact absurd heq (by simp)
        · rw [if_neg hres] at heq
          by_cases hn : q.2.isNullish
          · rw [if_pos hn] at heq
            exact absurd heq (by simp)
          · rw [if_neg hn] at heq
            rw [← Option.some_inj.mp heq]
      rw [List.map_cons, List.map_cons, hval]
      exact List.Sublist.cons₂ _ (by simpa using ih)

theorem exists_decomp_of_mem_nodup {md : List (String × String)}
    {k sv : String} (h : (k, sv) ∈ md) (hnd : (md.map Prod.fst).Nodup) :
    ∃ l1 l2, md = l1 ++ (k, sv) :: l2 ∧ ∀ p ∈ l2, p.1 ≠ k := by
  obtain ⟨l1, l2, rfl⟩ := List.append_of_mem h
  refine ⟨l1, l2, rfl, ?_⟩
  rw [List.map_append, List.map_cons] at hnd
  have h2 := hnd.sublist (List.sublist_append_right _ _)
  rw [List.nodup_cons] at h2
  intro p hp hpk
  exact h2.1 (List.mem_map.mpr ⟨p, hp, hpk⟩)

/-- C3 counterexample: the event with fields `a = null` and
`p_timestamp = "x"` is encoded with no attribute keyed `a` (its value is
null, so `extractMetadata` drops it) and no attribute keyed `p_timestamp`
(that key collides with the transport's internal timestamp entry and is
filtered from the attributes), although neither key is among the reserved
keys `level`, `message`, `timestamp` named by the claim. -/
theorem c3_fields_dropped_cex :
    "a" ∉ ((encodeRecord (mkLogEntry "INFO" "m" "T"
      [("a", JSValue.vnull),
       ("p_timestamp", JSValue.vstr "x")])).attributes.map Prod.fst) ∧
    "p_timestamp" ∉ ((encodeRecord (mkLogEntry "INFO" "m" "T"
      [("a", JSValue.vnull),
       ("p_timestamp", JSValue.vstr "x")])).attributes.map Prod.fst) := by
  decide

/-- C3 (amended): every field whose key is none of `level`, `message`,
`timestamp`, `p_timestamp` and whose value is neither null nor undefined
reaches the outbound attributes with its value converted to a string
(structured values JSON-stringified, scalars coerced via String); fields
with null or undefined values and fields keyed `p_timestamp` are dropped in
addition to the reserved keys. -/
theorem c3_fields_preserved (level message ts : String)
    (fields : List (String × JSValue)) (k : String) (v : JSValue)
    (hmem : (k, v) ∈ fields) (hnd : (fields.map Prod.fst).Nodup)
    (h1 : k ≠ "level") (h2 : k ≠ "message") (h3 : k ≠ "timestamp")
    (h4 : k ≠ "p_timestamp") (hv : v.isNullish = false) :
    (k, encodeFieldValue v) ∈
      (encodeRecord (mkLogEntry level message ts fields)).attributes := by
  have hmd : (k, encodeFieldValue v) ∈ extractMetadata fields :=
    mem_extractMetadata_of hmem h1 h2 h3 hv
  have hndmd : ((extractMetadata fields).map Prod.fst).Nodup :=
    (keys_extractMetadata_sublist fields).nodup hnd
  obtain ⟨l1, l2, hdec, hl2⟩ := exists_decomp_of_mem_nodup hmd hndmd
  have hobj : (k, encodeFieldValue v) ∈ mkLogEntry level message ts fields := by
    unfold mkLogEntry
    rw [extractMetadata_mkInfo, hdec, ← List.append_assoc]
    exact mem_mkObject_append
      ([("p_timestamp", ts), ("level", jsToUpper level), ("message", message),
        ("service", "n8n-comprehensive"), ("logger", "winston")] ++ l1) l2
      k (encodeFieldValue v) hl2
  unfold encodeRecord
  dsimp only
  rw [List.mem_filter]
  exact ⟨hobj, by simp [h1, h2, h4]⟩

theorem c3_fields_preserved_witness :
    ("code", encodeFieldValue (JSValue.vnum 42)) ∈
      (encodeRecord (mkLogEntry "INFO" "m" "T"
        [("code", JSValue.vnum 42)])).attributes :=
  c3_fields_preserved "INFO" "m" "T" [("code", JSValue.vnum 42)] "code"
    (JSValue.vnum 42) (List.mem_singleton.mpr rfl) (by simp)
    (by decide) (by decide) (by decide) (by decide) (by decide)

/-- C10 counterexample: when the caller supplies a field keyed `service`
(value `"x"`), the object-spread in `log` overwrites the transport's
stamped entry, so the encoded record carries `service -> "x"` and no
attribute `service -> "n8n-comprehensive"`, contradicting the claim that
that attribute is present on every record. -/
theorem c10_stamped_attrs_cex :
    ("service", "n8n-comprehensive") ∉
      (encodeRecord (mkLogEntry "INFO" "m" "T"
        [("service", JSValue.vstr "x")])).attributes ∧
    ("service", "x") ∈
      (encodeRecord (mkLogEntry "INFO" "m" "T"
        [("service", JSValue.vstr "x")])).attributes := by
  decide

/-- C10 (amended): the encoded record of every accepted event carries the
transport-stamped attributes `service -> "n8n-comprehensive"` and
`logger -> "winston"`, provided the caller-supplied fields contain no field
keyed `service` or `logger`; a caller field with one of those keys
overwrites the stamped value. -/
theorem c10_stamped_attrs (level message ts : String)
    (fields : List (String × JSValue))
    (hserv : ∀ p ∈ fields, p.1 ≠ "service")
    (hlog : ∀ p ∈ fields, p.1 ≠ "logger") :
    ("service", "n8n-comprehensive") ∈
      (encodeRecord (mkLogEntry level message ts fields)).attributes ∧
    ("logger", "winston") ∈
      (encodeRecord (mkLogEntry level message ts fields)).attributes := by
  have hmdserv : ∀ p ∈ extractMetadata fields, p.1 ≠ "service" := by
    intro p hp
    obtain ⟨hkeys, _, _, _⟩ := key_of_mem_extractMetadata hp
    obtain ⟨q, hq, hq1⟩ := List.mem_map.mp hkeys
    rw [← hq1]
    exact hserv q hq
  have hmdlog : ∀ p ∈ extractMetadata fields, p.1 ≠ "logger" := by
    intro p hp
    obtain ⟨hkeys, _, _, _⟩ := key_of_mem_extractMetadata hp
    obtain ⟨q, hq, hq1⟩ := List.mem_map.mp hkeys
    rw [← hq1]
    exact hlog q hq
  have hobjserv : ("service", "n8n-comprehensive") ∈
      mkLogEntry level message ts fields := by
    unfold mkLogEntry
    rw [extractMetadata_mkInfo]
    exact mem_mkObject_append
      [("p_timestamp", ts), ("level", jsToUpper level), ("message", message)]
      (("logger", "winston") :: extractMetadata fields)
      "service" "n8n-comprehensive"
      (by
        intro p hp
        rcases List.mem_cons.mp hp with rfl | hp'
        · decide
        · exact hmdserv p hp')
  have hobjlog : ("logger", "winston") ∈
      mkLogEntry level message ts fields := by
    unfold mkLogEntry
    rw [extractMetadata_mkInfo]
    exact mem_mkObject_append
      [("p_timestamp", ts), ("level", jsToUpper level), ("message", message),
       ("service", "n8n-comprehensive")]
      (extractMetadata fields) "logger" "winston" hmdlog
  constructor
  · unfold encodeRecord
    dsimp only
    rw [List.mem_filter]
    exact ⟨hobjserv, by decide⟩
  · unfold encodeRecord
    dsimp only
    rw [List.mem_filter]
    exact ⟨hobjlog, by decide⟩

theorem c10_stamped_attrs_witness :
    ("service", "n8n-comprehensive") ∈
      (encodeRecord (mkLogEntry "WARN" "w" "T"
        [("code", JSValue.vnum 42)])).attributes ∧
    ("logger", "winston") ∈
      (encodeRecord (mkLogEntry "WARN" "w" "T"
        [("code", JSValue.vnum 42)])).attributes :=
  c10_stamped_attrs "WARN" "w" "T" [("code", JSValue.vnum 42)]
    (by
      intro p hp
      rw [List.mem_singleton] at hp
      subst hp
      decide)
    (by
      intro p hp
      rw [List.mem_singleton] at hp
      subst hp
      decide)

theorem c2_encoding_witness :
    (encodeRecord (mkLogEntry "ERROR" "boom" "T"
      [("code", JSValue.vnum 42),
       ("nested", JSValue.vobj [("a", JSValue.vnum 1)])])).severityText =
        "ERROR" ∧
    (encodeRecord (mkLogEntry "ERROR" "boom" "T"
      [("code", JSValue.vnum 42),
       ("nested", JSValue.vobj [("a", JSValue.vnum 1)])])).bodyStringValue =
        "boom" ∧
    ("code", "42") ∈ (encodeRecord (mkLogEntry "ERROR" "boom" "T"
      [("code", JSValue.vnum 42),
       ("nested", JSValue.vobj [("a", JSValue.vnum 1)])])).attributes ∧
    ("nested", "\x7b\"a\":1\x7d") ∈ (encodeRecord (mkLogEntry "ERROR" "boom" "T"
      [("code", JSValue.vnum 42),
       ("nested", JSValue.vobj [("a", JSValue.vnum 1)])])).attributes ∧
    (("code", "42").1 ≠ "level" ∧ ("code", "42").1 ≠ "message" ∧
      ("code", "42").1 ≠ "timestamp") :=
  And.intro (c2_encoding "T").1 (And.intro (c2_encoding "T").2.1
    (And.intro (c2_encoding "T").2.2.1 (And.intro (c2_encoding "T").2.2.2.1
      ((c2_encoding "T").2.2.2.2 ("code", "42") (c2_encoding "T").2.2.1))))
